import Mathlib

/-!
Verification development for the study-stream-connect room coordinator
(src/contexts/RoomContext.tsx) and the id normaliser (src/utils/uuid.ts,
src/contexts/AuthContext.tsx).

The TypeScript code is shallowly embedded: React state updates are modelled
as immediate, sequential updates of an explicit record (the functional
updater form setX(prev => ...) used throughout the source is sequential by
construction); refs are further record fields; network sends (channel.track,
channel.send) are effects with no coordinator-state component beyond what
the source stores; toast notifications are accumulated in a list so that
user-visible error counts can be stated.  Calls (PeerJS MediaConnection
objects) are given serial numbers from a counter in the state so that
"the old link was closed and a new one opened" is observable; closing a
call appends its serial number to a log.
-/

namespace StudyStream

/-- One media track; only the enabled flag is observable to the coordinator
(mute/video toggles flip it; track.stop is modelled by dropping the handle). -/
structure Track where
  enabled : Bool
  deriving Repr, DecidableEq

/-- A media stream handle: lists of audio and video tracks, as returned by
getUserMedia / getDisplayMedia. -/
structure MediaStream where
  audioTracks : List Track
  videoTracks : List Track
  deriving Repr, DecidableEq

/-- The authenticated user from AuthContext consumed by RoomContext. -/
structure User where
  id : String
  name : String
  avatar : Option String
  deriving Repr, DecidableEq

/-- Participant record of RoomContext.tsx (lines 9-18). -/
structure Participant where
  id : String
  name : String
  avatar : Option String
  stream : Option MediaStream
  isMuted : Bool
  isVideoOff : Bool
  isScreenSharing : Bool
  peerId : Option String
  deriving Repr, DecidableEq

/-- ChatMessage record of RoomContext.tsx (lines 20-26); timestamps are
abstract naturals. -/
structure ChatMessage where
  id : String
  senderId : String
  senderName : String
  text : String
  timestamp : Nat
  deriving Repr, DecidableEq

/-- A PeerJS MediaConnection as far as the coordinator observes it: the
remote peer address, the media it carries outward, and a serial number
identifying the underlying object. -/
structure Call where
  peer : String
  media : Option MediaStream
  callId : Nat
  deriving Repr, DecidableEq

/-- The local PeerJS endpoint (peerRef.current). -/
structure PeerHandle where
  peerId : String
  deriving Repr, DecidableEq

/-- The supabase channel handle stored in channelRef; after setupChatChannel
wraps it, it owns both the presence topic and the chat topic, and
supabase.removeChannel on it unsubscribes every owned topic. -/
structure ChannelHandle where
  topics : List String
  deriving Repr, DecidableEq

/-- Severity of a toast notification. -/
inductive ToastLevel where
  | error
  | info
  | success
  | warning
  deriving Repr, DecidableEq

/-- A toast notification surfaced to the user. -/
structure Toast where
  level : ToastLevel
  text : String
  deriving Repr, DecidableEq

/-- The full state of the RoomProvider component: React state, refs, and
the toast / closed-call logs used to observe effects. -/
structure RoomState where
  user : Option User
  roomId : Option String
  participants : List Participant
  chatMessages : List ChatMessage
  localStream : Option MediaStream
  isAudioMuted : Bool
  isVideoOff : Bool
  isScreenSharing : Bool
  isJoining : Bool
  localStreamRef : Option MediaStream
  screenShareStreamRef : Option MediaStream
  channelRef : Option ChannelHandle
  peerRef : Option PeerHandle
  peerConnections : List (String × Call)
  nextCallId : Nat
  closedCallIds : List Nat
  toasts : List Toast
  deriving Repr, DecidableEq

/-- JavaScript String.prototype.split with a one-character separator,
on the character list: keeps empty segments, always returns at least one
segment. -/
def splitChar : List Char → Char → List (List Char)
  | [], _ => [[]]
  | c :: cs, sep =>
    let rest := splitChar cs sep
    if c = sep then [] :: rest
    else
      match rest with
      | [] => [[c]]
      | r :: rs => (c :: r) :: rs

/-- JavaScript s.split(sep) for a one-character separator. -/
def jsSplit (s : String) (sep : Char) : List String :=
  (splitChar s.data sep).map List.asString

/-- The identity the source recovers from a composite peer address:
remotePeerId.split(Char.ofNat 45)[1], i.e. the second hyphen-separated
segment (RoomContext.tsx line 330 and the screen-share reconnect handlers). -/
def remoteIdOfPeerId (pid : String) : Option String :=
  (jsSplit pid '-')[1]?

/-- JavaScript Map.get on the association-list model of a Map. -/
def mapGet {α : Type} (m : List (String × α)) (k : String) : Option α :=
  (m.find? (fun e => e.1 = k)).map (fun e => e.2)

/-- JavaScript Map.set: replace the entry at the key, or append a new one. -/
def mapSet {α : Type} (m : List (String × α)) (k : String) (v : α) :
    List (String × α) :=
  if m.any (fun e => e.1 = k) then
    m.map (fun e => if e.1 = k then (k, v) else e)
  else m ++ [(k, v)]

/-- JavaScript Map.delete. -/
def mapDelete {α : Type} (m : List (String × α)) (k : String) :
    List (String × α) :=
  m.filter (fun e => ¬ e.1 = k)

/-! ## Local Media Acquirer (initLocalStream, RoomContext.tsx lines 168-300) -/

/-- The three device-availability outcomes of the tiered getUserMedia
requests; the granted tiers carry the stream the browser returned. -/
inductive DeviceOutcome where
  | both (stream : MediaStream)
  | audioOnly (stream : MediaStream)
  | none
  deriving Repr, DecidableEq

/-- The local-participant roster update repeated in each tier of
initLocalStream: update the existing entry for the local user, or append a
fresh one.  newStream = some st sets the stream field (tiers 1 and 2);
newStream = none leaves an existing entry's stream untouched and inserts
without a stream (tier 3). -/
def setLocalParticipant (u : User) (newStream : Option MediaStream)
    (muted videoOff : Bool) (ps : List Participant) : List Participant :=
  if ps.any (fun p => p.id = u.id) then
    ps.map (fun p =>
      if p.id = u.id then
        { p with
          stream := match newStream with
            | some st => some st
            | none => p.stream,
          isMuted := muted, isVideoOff := videoOff, isScreenSharing := false }
      else p)
  else
    ps ++ [{ id := u.id, name := u.name, avatar := u.avatar,
             stream := newStream, isMuted := muted, isVideoOff := videoOff,
             isScreenSharing := false, peerId := none }]

/-- initLocalStream: tiered media acquisition.  Every tier is caught
internally; the function always returns (it never throws), yielding the
stream it stored, if any. -/
def initLocalStream (outcome : DeviceOutcome) (s : RoomState) :
    RoomState × Option MediaStream :=
  match outcome with
  | .both stream =>
    let s := { s with localStreamRef := some stream, localStream := some stream,
                      isAudioMuted := false, isVideoOff := false }
    let s := match s.user with
      | some u =>
        { s with participants :=
            setLocalParticipant u (some stream) false false s.participants }
      | none => s
    (s, some stream)
  | .audioOnly stream =>
    let s := { s with localStreamRef := some stream, localStream := some stream,
                      isAudioMuted := false, isVideoOff := true }
    let s := match s.user with
      | some u =>
        { s with participants :=
            setLocalParticipant u (some stream) false true s.participants }
      | none => s
    ({ s with toasts := s.toasts ++
        [⟨.info, "Video camera not available. Using audio only."⟩] },
     some stream)
  | .none =>
    let s := match s.user with
      | some u =>
        { s with participants :=
            setLocalParticipant u none true true s.participants }
      | none => s
    ({ s with isAudioMuted := true, isVideoOff := true,
              toasts := s.toasts ++
                [⟨.warning, "Could not access camera or microphone. You can still chat with others."⟩] },
     none)

/-! ## Participant enrichment (fetchRoomParticipants, lines 121-166) -/

/-- The Participant the source builds from one room_participants row
(only user_id is used; the display name and avatar are derived from it). -/
def participantOfRow (userId : String) : Participant :=
  let email := "user-" ++ userId.take 8 ++ "@example.com"
  let name := (jsSplit email '@').headD ""
  { id := userId, name := name,
    avatar := some ("https://avatar.vercel.sh/" ++ email ++ "?size=128"),
    stream := none, isMuted := false, isVideoOff := false,
    isScreenSharing := false, peerId := none }

/-- fetchRoomParticipants: one best-effort backend query; errors are caught
and leave the state unchanged.  The fetched rows are the user_id values of
the active memberships of the room. -/
def fetchRoomParticipants (fetched : Except Unit (List String)) (rid : String)
    (s : RoomState) : RoomState :=
  if rid = "" then s
  else
    match fetched with
    | .error _ => s
    | .ok rows =>
      let rows := match s.user with
        | some u => rows.filter (fun r => ¬ r = u.id)
        | none => rows
      let roomParticipants := rows.map participantOfRow
      if roomParticipants.length > 0 then
        let existingIds := s.participants.map (fun p => p.id)
        let newParticipants :=
          roomParticipants.filter (fun p => ¬ existingIds.contains p.id)
        { s with participants := s.participants ++ newParticipants }
      else s

/-! ## Peer Connection Manager (initializePeer / connectToPeers and the
call handlers, lines 302-401) -/

/-- initializePeer: derive the local peer address from the room id and the
user id and open the endpoint (the construction failure path only toasts
and is not modelled; the endpoint server is external). -/
def initializePeer (s : RoomState) : RoomState :=
  match s.user, s.roomId with
  | some u, some rid =>
    let pid := rid ++ "-" ++ u.id
    { s with peerRef := some ⟨pid⟩ }
  | _, _ => s

/-- The peer.on open handler: record the now-known local peer address on
the local roster entry. -/
def handlePeerOpen (s : RoomState) : RoomState :=
  match s.user, s.peerRef with
  | some u, some ph =>
    { s with participants := s.participants.map (fun p =>
        if p.id = u.id then { p with peerId := some ph.peerId } else p) }
  | _, _ => s

/-- The peer.on call handler: answer with the local stream when one exists
(the per-call stream handler then fires as handleIncomingStream), answer
empty otherwise, and store the call under the remote peer address. -/
def handleIncomingCall (callPeer : String) (s : RoomState) : RoomState :=
  let answered : Option MediaStream := s.localStreamRef
  let call : Call := { peer := callPeer, media := answered, callId := s.nextCallId }
  { s with nextCallId := s.nextCallId + 1,
           peerConnections := mapSet s.peerConnections callPeer call }

/-- The stream handler of an answered inbound call: split the remote user
id out of the composite peer address and attach the stream to that roster
entry. -/
def handleIncomingStream (callPeer : String) (remoteStream : MediaStream)
    (s : RoomState) : RoomState :=
  match remoteIdOfPeerId callPeer with
  | some remoteUserId =>
    { s with participants := s.participants.map (fun p =>
        if p.id = remoteUserId then
          { p with stream := some remoteStream, peerId := some callPeer }
        else p) }
  | none => s

/-- One iteration of the connectToPeers loop: originate a call to the
entry when it has an advertised peer address, is not the local user, and
has no stored call yet. -/
def connectStep (u : User) (ls : MediaStream) (st : RoomState)
    (p : Participant) : RoomState :=
  match p.peerId with
  | none => st
  | some pid =>
    if p.id = u.id then st
    else if (mapGet st.peerConnections pid).isSome then st
    else
      let call : Call := { peer := pid, media := some ls, callId := st.nextCallId }
      { st with nextCallId := st.nextCallId + 1,
                peerConnections := mapSet st.peerConnections pid call }

/-- connectToPeers: originate a call to every eligible roster entry.
Requires the endpoint, a local stream and a user, as in the source guard. -/
def connectToPeers (s : RoomState) : RoomState :=
  match s.peerRef, s.localStreamRef, s.user with
  | some _, some ls, some u => s.participants.foldl (connectStep u ls) s
  | _, _, _ => s

/-- The stream handler of an outbound call: attach the remote stream to the
roster entry the call was aimed at. -/
def handleOutboundStream (targetId : String) (remoteStream : MediaStream)
    (s : RoomState) : RoomState :=
  { s with participants := s.participants.map (fun p =>
      if p.id = targetId then { p with stream := some remoteStream } else p) }

/-! ## Presence Channel glue (setupRealTimePresence, lines 403-492) -/

/-- One presence descriptor as delivered by the realtime platform; only the
fields the handlers read are modelled. -/
structure Presence where
  user_id : String
  peerId : Option String
  deriving Repr, DecidableEq

/-- The per-descriptor update shared by the sync and join handlers: record
the advertised peer address on the matching roster entry, skipping the
local user and descriptors without an address. -/
def applyPresenceUpdate (u : User) (pr : Presence) (ps : List Participant) :
    List Participant :=
  match pr.peerId with
  | some pid =>
    if ¬ pr.user_id = u.id then
      ps.map (fun p =>
        if p.id = pr.user_id then { p with peerId := some pid } else p)
    else ps
  | none => ps

/-- The presence sync handler: fold the full member set through the
descriptor update, then try to connect to the now-known peer addresses. -/
def handlePresenceSync (presences : List Presence) (s : RoomState) : RoomState :=
  match s.user with
  | none => s
  | some u =>
    let ps2 := presences.foldl (fun ps pr => applyPresenceUpdate u pr ps) s.participants
    let s := { s with participants := ps2 }
    connectToPeers s

/-- The presence join handler: apply the descriptor updates; the deferred
setTimeout connectToPeers runs later as its own connectToPeers step. -/
def handlePresenceJoin (newPresences : List Presence) (s : RoomState) : RoomState :=
  match s.user with
  | none => s
  | some u =>
    let ps2 := newPresences.foldl (fun ps pr => applyPresenceUpdate u pr ps) s.participants
    { s with participants := ps2 }

/-- Close and drop the stored call advertised by one departed descriptor,
when there is one. -/
def closeLinkFor (pr : Presence) (s : RoomState) : RoomState :=
  match pr.peerId with
  | some pid =>
    match mapGet s.peerConnections pid with
    | some call =>
      { s with closedCallIds := s.closedCallIds ++ [call.callId],
               peerConnections := mapDelete s.peerConnections pid }
    | none => s
  | none => s

/-- The presence leave handler: drop the departed identities from the
roster and close their stored calls. -/
def handlePresenceLeave (leftPresences : List Presence) (s : RoomState) : RoomState :=
  let leftIds := leftPresences.map (fun pr => pr.user_id)
  if leftIds.length > 0 then
    let ps2 := s.participants.filter (fun p => ¬ leftIds.contains p.id)
    let s := { s with participants := ps2 }
    leftPresences.foldl (fun st pr => closeLinkFor pr st) s
  else s

/-- setupRealTimePresence: remove any previous channel handle, subscribe to
the presence topic of the room and advertise the local descriptor (a
network send with no further coordinator-state component). -/
def setupRealTimePresence (rid : String) (s : RoomState) : RoomState :=
  if rid = "" ∨ s.user.isNone then s
  else { s with channelRef := some ⟨["room:" ++ rid]⟩ }

/-! ## Chat Broadcast Channel (setupChatChannel / sendChatMessage and the
broadcast handler, lines 494-525 and 613-642) -/

/-- setupChatChannel: subscribe the chat topic and fold it into the stored
channel handle, whose removal then unsubscribes both topics. -/
def setupChatChannel (rid : String) (s : RoomState) : RoomState :=
  if rid = "" ∨ s.user.isNone then s
  else
    let prevTopics := match s.channelRef with
      | some h => h.topics
      | none => []
    { s with channelRef := some ⟨prevTopics ++ ["chat:" ++ rid]⟩ }

/-- The broadcast chat_message handler: append the delivered message unless
it was sent by the local identity (whose copy was already appended locally
by sendChatMessage). -/
def handleChatBroadcast (payload : Option ChatMessage) (s : RoomState) : RoomState :=
  match s.user, payload with
  | some u, some msg =>
    if ¬ msg.senderId = u.id then
      { s with chatMessages := s.chatMessages ++ [msg] }
    else s
  | _, _ => s

/-- sendChatMessage: append the new message to the local history, then
broadcast the same payload; the broadcast payload is returned so that its
later delivery can be modelled with handleChatBroadcast. -/
def sendChatMessage (msgId : String) (now : Nat) (text : String)
    (s : RoomState) : RoomState × Option ChatMessage :=
  match s.user, s.roomId with
  | some u, some _rid =>
    let newMessage : ChatMessage :=
      { id := msgId, senderId := u.id, senderName := u.name,
        text := text, timestamp := now }
    ({ s with chatMessages := s.chatMessages ++ [newMessage] }, some newMessage)
  | _, _ => (s, Option.none)

/-! ## Room Session Coordinator (joinRoom / leaveRoom, lines 527-611) -/

/-- The synthetic system welcome message inserted at join time. -/
def welcomeMessage (now : Nat) : ChatMessage :=
  { id := "msg-system-1", senderId := "system", senderName := "System",
    text := "Welcome to the room! You can chat with other participants here.",
    timestamp := now }

/-- The environment outcomes one joinRoom run can observe: the
device-availability tier, the enrichment query result, and whether the
channel-setup steps throw (the only steps of the join sequence not caught
internally). -/
structure JoinConfig where
  deviceOutcome : DeviceOutcome
  fetched : Except Unit (List String)
  presenceFails : Bool
  chatFails : Bool
  now : Nat

/-- The catch block of joinRoom: one error toast, clear the room id; the
finally block clears the joining flag. -/
def joinFailure (s : RoomState) : RoomState :=
  { s with toasts := s.toasts ++ [⟨.error, "Failed to join room. Please try again."⟩],
           roomId := none, isJoining := false }

/-- joinRoom: the join sequence of the coordinator.  A throwing step
(channel setup) transfers control to the catch block joinFailure. -/
def joinRoom (cfg : JoinConfig) (id : String) (s : RoomState) : RoomState :=
  match s.user with
  | none =>
    { s with toasts := s.toasts ++ [⟨.error, "You must be logged in to join a room"⟩] }
  | some _ =>
    let s := { s with isJoining := true }
    let s := (initLocalStream cfg.deviceOutcome s).1
    let s := { s with roomId := some id }
    let s := fetchRoomParticipants cfg.fetched id s
    let s := initializePeer s
    if cfg.presenceFails then joinFailure s
    else
      let s := setupRealTimePresence id s
      if cfg.chatFails then joinFailure s
      else
        let s := setupChatChannel id s
        let s := { s with chatMessages := [welcomeMessage cfg.now] }
        { s with toasts := s.toasts ++ [⟨.success, "Joined room successfully!"⟩],
                 isJoining := false }

/-- leaveRoom: stop and drop both local streams, destroy the endpoint,
close and clear every stored call, remove the channel handle, and reset the
session state. -/
def leaveRoom (s : RoomState) : RoomState :=
  let closedNow : List Nat :=
    s.peerConnections.map (fun (e : String × Call) => e.2.callId)
  { s with localStreamRef := none, screenShareStreamRef := none,
           peerRef := none,
           closedCallIds := s.closedCallIds ++ closedNow,
           peerConnections := [], channelRef := none,
           localStream := none, isScreenSharing := false, roomId := none,
           participants := [], chatMessages := [],
           toasts := s.toasts ++ [⟨.info, "You have left the room"⟩] }

/-! ## Local toggles (toggleAudio / toggleVideo, lines 644-730) -/

/-- toggleAudio: flip the mute flag, apply it to every audio track of the
current local stream (enable/disable, never stop), mirror it on the local
roster entry, and re-advertise (a network send). -/
def toggleAudio (s : RoomState) : RoomState :=
  match s.localStream with
  | none => { s with toasts := s.toasts ++ [⟨.error, "No audio available"⟩] }
  | some ls =>
    if ls.audioTracks.length = 0 then
      { s with toasts := s.toasts ++ [⟨.error, "No audio device available"⟩] }
    else
      let newMuteState := !s.isAudioMuted
      let ls2 : MediaStream :=
        { ls with audioTracks := ls.audioTracks.map (fun t => { t with enabled := !newMuteState }) }
      let s2 := { s with localStream := some ls2, isAudioMuted := newMuteState }
      let s3 : RoomState := match s.user with
        | some u =>
          { s2 with participants := s2.participants.map (fun p =>
              if p.id = u.id then { p with isMuted := newMuteState } else p) }
        | none => s2
      { s3 with toasts := s3.toasts ++
          [⟨.info, if newMuteState then "Microphone muted" else "Microphone unmuted"⟩] }

/-- toggleVideo: the video counterpart of toggleAudio. -/
def toggleVideo (s : RoomState) : RoomState :=
  match s.localStream with
  | none => { s with toasts := s.toasts ++ [⟨.error, "No video available"⟩] }
  | some ls =>
    if ls.videoTracks.length = 0 then
      { s with toasts := s.toasts ++ [⟨.error, "No video device available"⟩] }
    else
      let newVideoOffState := !s.isVideoOff
      let ls2 : MediaStream :=
        { ls with videoTracks := ls.videoTracks.map (fun t => { t with enabled := !newVideoOffState }) }
      let s2 := { s with localStream := some ls2, isVideoOff := newVideoOffState }
      let s3 : RoomState := match s.user with
        | some u =>
          { s2 with participants := s2.participants.map (fun p =>
              if p.id = u.id then { p with isVideoOff := newVideoOffState } else p) }
        | none => s2
      { s3 with toasts := s3.toasts ++
          [⟨.info, if newVideoOffState then "Camera turned off" else "Camera turned on"⟩] }

/-! ## Screen share (toggleScreenShare, lines 732-933) -/

/-- The per-connection loop shared by the screen-share start and stop
branches: close every stored call (logging its serial number) and, when
recall holds (the endpoint, and in the stop branch the camera stream, are
present), originate a replacement call to the same remote address carrying
the new media; without recall the closed call stays stored. -/
def replaceCallsAux (redial : Bool) (media : MediaStream) :
    List (String × Call) → Nat → List Nat →
    List (String × Call) × Nat × List Nat
  | [], n, closed => ([], n, closed)
  | (k, c) :: rest, n, closed =>
    let closed1 := closed ++ [c.callId]
    if redial then
      let newCall : Call := { peer := k, media := some media, callId := n }
      let out := replaceCallsAux redial media rest (n + 1) closed1
      ((k, newCall) :: out.1, out.2.1, out.2.2)
    else
      let out := replaceCallsAux redial media rest n closed1
      ((k, c) :: out.1, out.2.1, out.2.2)

/-- Apply replaceCallsAux to the stored connection table, threading the
call counter and the closed-call log. -/
def replaceAllCalls (media : MediaStream) (s : RoomState) : RoomState :=
  let out := replaceCallsAux s.peerRef.isSome media s.peerConnections
    s.nextCallId s.closedCallIds
  { s with peerConnections := out.1, nextCallId := out.2.1,
           closedCallIds := out.2.2 }

/-- toggleScreenShare: when sharing, stop the screen stream, swap the
display stream back to the camera and recreate every call with it; when not
sharing, capture the screen (displayOutcome none models a denied
getDisplayMedia), swap the display stream to it and recreate every call
with the screen stream. -/
def toggleScreenShare (displayOutcome : Option MediaStream) (s : RoomState) :
    RoomState :=
  match s.user with
  | none => s
  | some u =>
    if s.isScreenSharing then
      let s := { s with screenShareStreamRef := none }
      let s := match s.localStreamRef with
        | some cam =>
          let s := { s with localStream := some cam }
          replaceAllCalls cam s
        | none => s
      let ps2 := s.participants.map (fun p =>
        if p.id = u.id then { p with isScreenSharing := false } else p)
      { s with isScreenSharing := false, participants := ps2,
               toasts := s.toasts ++ [⟨.info, "Screen sharing stopped"⟩] }
    else
      match displayOutcome with
      | some screenStream =>
        let s := { s with screenShareStreamRef := some screenStream,
                          localStream := some screenStream, isScreenSharing := true }
        let s := replaceAllCalls screenStream s
        let ps2 := s.participants.map (fun p =>
          if p.id = u.id then { p with isScreenSharing := true } else p)
        { s with participants := ps2,
                 toasts := s.toasts ++ [⟨.success, "Screen sharing started"⟩] }
      | none =>
        { s with toasts := s.toasts ++
            [⟨.error, "Failed to share screen. You may have denied permission."⟩] }

/-! ## Id normalisation (getValidUuid: src/utils/uuid.ts lines 8-24 and the
AuthContext-local copy, src/contexts/AuthContext.tsx lines 52-63) -/

/-- A hexadecimal digit under the case-insensitive regex character class. -/
def isHexDigitCI (c : Char) : Bool :=
  (('0' ≤ c && c ≤ '9') || ('a' ≤ c && c ≤ 'f') || ('A' ≤ c && c ≤ 'F'))

/-- The anchored 8-4-4-4-12 case-insensitive UUID regex of both sources:
exactly five hyphen-separated segments of those lengths, hex digits only
(the id-truthiness guard is subsumed: the empty string never matches). -/
def isUuidFormat (id : String) : Bool :=
  let segs := jsSplit id '-'
  (segs.map (fun seg => seg.length) == [8, 4, 4, 4, 12]) &&
    segs.all (fun seg => seg.data.all isHexDigitCI)

/-- The persisted id_mappings store (localStorage), as an association list. -/
abbrev IdMappings := List (String × String)

/-- The uuidv4 generator, modelled as a stream of generated values indexed
by a counter (each call to the library draws the next one). -/
structure UuidGen where
  stream : Nat → String
  counter : Nat

/-- Draw the next generated UUID. -/
def UuidGen.fresh (g : UuidGen) : String × UuidGen :=
  (g.stream g.counter, { g with counter := g.counter + 1 })

/-- getValidUuid of src/utils/uuid.ts: keep UUID-format ids; otherwise
return the stored mapping when one exists, else generate, persist and
return a fresh UUID. -/
def getValidUuid (g : UuidGen) (store : IdMappings) (id : String) :
    String × IdMappings × UuidGen :=
  if isUuidFormat id then (id, store, g)
  else
    match mapGet store id with
    | some mapped => (mapped, store, g)
    | none =>
      let fr := UuidGen.fresh g
      (fr.1, mapSet store id fr.1, fr.2)

/-- The AuthContext-local getValidUuid: keep UUID-format ids; otherwise it
generates and persists a fresh UUID on every call, without consulting the
stored mapping. -/
def getValidUuidAuth (g : UuidGen) (store : IdMappings) (id : String) :
    String × IdMappings × UuidGen :=
  if isUuidFormat id then (id, store, g)
  else
    let fr := UuidGen.fresh g
    (fr.1, mapSet store id fr.1, fr.2)

/-- The stream with every audio track's enabled flag set (the effect of
the track.enabled assignments of toggleAudio). -/
def setAudioEnabled (ls : MediaStream) (b : Bool) : MediaStream :=
  { ls with audioTracks := ls.audioTracks.map (fun t => { t with enabled := b }) }

/-- The stream with every video track's enabled flag set (the effect of
the track.enabled assignments of toggleVideo). -/
def setVideoEnabled (ls : MediaStream) (b : Bool) : MediaStream :=
  { ls with videoTracks := ls.videoTracks.map (fun t => { t with enabled := b }) }

/-! ## Roster-mutating events (for the roster-uniqueness invariant) -/

/-- The roster-mutating operations and events of the coordinator: the
local-participant insertion of the join sequence, the backend enrichment
merge, the presence handlers, the call handlers and the connect loop. -/
inductive RoomEvent where
  | localInsert (outcome : DeviceOutcome)
  | enrich (rid : String) (rows : List String)
  | presenceSync (presences : List Presence)
  | presenceJoin (presences : List Presence)
  | presenceLeave (presences : List Presence)
  | inboundCall (callPeer : String)
  | inboundStream (callPeer : String) (st : MediaStream)
  | outboundStream (targetId : String) (st : MediaStream)
  | connect
  | peerOpen

/-- Apply one event to the coordinator state, dispatching to the embedded
handler. -/
def applyEvent (e : RoomEvent) (s : RoomState) : RoomState :=
  match e with
  | .localInsert outcome => (initLocalStream outcome s).1
  | .enrich rid rows => fetchRoomParticipants (.ok rows) rid s
  | .presenceSync presences => handlePresenceSync presences s
  | .presenceJoin presences => handlePresenceJoin presences s
  | .presenceLeave presences => handlePresenceLeave presences s
  | .inboundCall callPeer => handleIncomingCall callPeer s
  | .inboundStream callPeer st => handleIncomingStream callPeer st s
  | .outboundStream targetId st => handleOutboundStream targetId st s
  | .connect => connectToPeers s
  | .peerOpen => handlePeerOpen s

/-- Apply a sequence of events in order. -/
def applyEvents (evs : List RoomEvent) (s : RoomState) : RoomState :=
  evs.foldl (fun s e => applyEvent e s) s

/-- The identities currently on the roster. -/
def rosterIds (s : RoomState) : List String :=
  s.participants.map (fun p => p.id)

/-- Well-formedness of an event: an enrichment batch lists each membership
row at most once per user (the backend upserts memberships keyed on
room+user, so the active rows of a room carry pairwise distinct user_id
values); every other event is unconstrained. -/
def eventWF (e : RoomEvent) : Prop :=
  match e with
  | .enrich _ rows => rows.Nodup
  | _ => True

/-! ## Concrete inputs used by witnesses and counterexamples -/

/-- The state of a freshly mounted RoomProvider: no session, no resources. -/
def emptyState : RoomState :=
  { user := none, roomId := none, participants := [], chatMessages := [],
    localStream := none, isAudioMuted := false, isVideoOff := false,
    isScreenSharing := false, isJoining := false, localStreamRef := none,
    screenShareStreamRef := none, channelRef := none, peerRef := none,
    peerConnections := [], nextCallId := 0, closedCallIds := [], toasts := [] }

/-- A concrete authenticated user. -/
def demoUser : User := { id := "u1", name := "User One", avatar := none }

/-- A concrete camera+microphone stream: one audio and one video track. -/
def camStream : MediaStream := ⟨[⟨true⟩], [⟨true⟩]⟩

/-- A concrete screen-capture stream: one video track, no audio. -/
def screenStream : MediaStream := ⟨[], [⟨true⟩]⟩

/-- A concrete deterministic uuidv4 draw sequence. -/
def genStream : UuidGen := { stream := fun n => "u" ++ toString n, counter := 0 }

/-- A concrete active chat session used by the local-echo witness. -/
def chatState : RoomState :=
  { emptyState with user := some demoUser, roomId := some "room1" }

/-- A concrete roster entry for remote identity P2, not yet streaming. -/
def p2Entry : Participant :=
  ⟨"P2", "P2", none, none, false, false, false, none⟩

/-- A concrete session in a room whose id contains a hyphen (room ids are
UUIDs in this system, so this is the common case). -/
def hyphenRoomState : RoomState :=
  { emptyState with
      user := some demoUser, roomId := some "a-b", participants := [p2Entry] }

/-- A concrete session in a hyphen-free room, as in the spec scenario. -/
def plainRoomState : RoomState :=
  { emptyState with
      user := some demoUser, roomId := some "R1", participants := [p2Entry] }

/-- A concrete start state for the roster-uniqueness witness. -/
def demoStartState : RoomState := { emptyState with user := some demoUser }

/-- A concrete event sequence exercising every kind of roster-mutating
event. -/
def demoEvents : List RoomEvent :=
  [.localInsert (.both camStream),
   .enrich "room1" ["P2", "P3"],
   .presenceSync [⟨"P2", some "room1-P2"⟩],
   .presenceJoin [⟨"P3", some "room1-P3"⟩],
   .inboundCall "room1-P2",
   .inboundStream "room1-P2" camStream,
   .outboundStream "P3" camStream,
   .connect,
   .peerOpen,
   .presenceLeave [⟨"P3", some "room1-P3"⟩]]

/-- A concrete active session with one open PeerLink, used by the
screen-share witness. -/
def shareState : RoomState :=
  { emptyState with
      user := some demoUser, peerRef := some ⟨"room1-u1"⟩,
      localStreamRef := some camStream,
      peerConnections := [("room1-P2", ⟨"room1-P2", some camStream, 0⟩)],
      nextCallId := 1 }

/-- Number of error-level toasts surfaced so far. -/
def errorCount (s : RoomState) : Nat :=
  s.toasts.countP (fun t => t.level == ToastLevel.error)

/-- The session portion of the state: everything except the cumulative
toast-notification history. -/
def sessionCore (s : RoomState) : RoomState :=
  { s with toasts := [] }

/-! ## Frame lemmas -/

/-- fetchRoomParticipants only ever touches the roster. -/
lemma fetchRoomParticipants_shape (f : Except Unit (List String)) (rid : String)
    (s : RoomState) :
    ∃ ps, fetchRoomParticipants f rid s = { s with participants := ps } := by
  unfold fetchRoomParticipants
  split
  · exact ⟨s.participants, rfl⟩
  · match f with
    | .error _ => exact ⟨s.participants, rfl⟩
    | .ok rows =>
      simp only
      split
      · exact ⟨_, rfl⟩
      · exact ⟨s.participants, rfl⟩

/-- initializePeer only ever touches the endpoint handle. -/
lemma initializePeer_shape (s : RoomState) :
    ∃ pr, initializePeer s = { s with peerRef := pr } := by
  obtain ⟨user, roomId, ps, cm, lstream, am, vo, ss, ij, lref, sref, ch, pr, pc,
    nid, cc, ts⟩ := s
  cases user <;> cases roomId <;> exact ⟨_, rfl⟩

/-- setupRealTimePresence only ever touches the channel handle. -/
lemma setupRealTimePresence_shape (rid : String) (s : RoomState) :
    ∃ ch, setupRealTimePresence rid s = { s with channelRef := ch } := by
  unfold setupRealTimePresence
  split
  · exact ⟨s.channelRef, rfl⟩
  · exact ⟨_, rfl⟩

/-- setupChatChannel only ever touches the channel handle. -/
lemma setupChatChannel_shape (rid : String) (s : RoomState) :
    ∃ ch, setupChatChannel rid s = { s with channelRef := ch } := by
  unfold setupChatChannel
  split
  · exact ⟨s.channelRef, rfl⟩
  · exact ⟨_, rfl⟩

/-- initLocalStream leaves the room id, the joining flag and the user
untouched in every tier. -/
lemma initLocalStream_fst_frame (o : DeviceOutcome) (s : RoomState) :
    (initLocalStream o s).1.roomId = s.roomId ∧
    (initLocalStream o s).1.isJoining = s.isJoining ∧
    (initLocalStream o s).1.user = s.user := by
  cases o <;> cases hu : s.user <;> simp [initLocalStream, hu]

/-- fetchRoomParticipants leaves the room id untouched. -/
lemma fetchRoomParticipants_roomId (f : Except Unit (List String)) (rid : String)
    (s : RoomState) : (fetchRoomParticipants f rid s).roomId = s.roomId := by
  obtain ⟨ps, h⟩ := fetchRoomParticipants_shape f rid s
  rw [h]

/-- initializePeer leaves the room id untouched. -/
lemma initializePeer_roomId (s : RoomState) :
    (initializePeer s).roomId = s.roomId := by
  obtain ⟨pr, h⟩ := initializePeer_shape s
  rw [h]

/-- setupRealTimePresence leaves the room id untouched. -/
lemma setupRealTimePresence_roomId (rid : String) (s : RoomState) :
    (setupRealTimePresence rid s).roomId = s.roomId := by
  obtain ⟨ch, h⟩ := setupRealTimePresence_shape rid s
  rw [h]

/-- setupChatChannel leaves the room id untouched. -/
lemma setupChatChannel_roomId (rid : String) (s : RoomState) :
    (setupChatChannel rid s).roomId = s.roomId := by
  obtain ⟨ch, h⟩ := setupChatChannel_shape rid s
  rw [h]

/-- A successful join (user present, neither channel-setup step throws)
ends with the requested room id set and the joining flag cleared. -/
lemma joinRoom_success_frame (cfg : JoinConfig) (id : String) (s : RoomState)
    (u : User) (hu : s.user = some u)
    (hp : cfg.presenceFails = false) (hc : cfg.chatFails = false) :
    (joinRoom cfg id s).roomId = some id ∧ (joinRoom cfg id s).isJoining = false := by
  refine ⟨?_, ?_⟩ <;>
    simp [joinRoom, hu, hp, hc, setupChatChannel_roomId,
      setupRealTimePresence_roomId, initializePeer_roomId,
      fetchRoomParticipants_roomId]

/-- C4: leaveRoom is idempotent and safe from any state: a second call
yields the same session state as the first (the cumulative toast-
notification history aside), the post-state holds no channel handle, no
local media stream, no endpoint, no stored calls, an empty roster and an
empty chat history, and no error-level toast is surfaced. -/
theorem leaveRoom_idempotent_safe (s : RoomState) :
    sessionCore (leaveRoom (leaveRoom s)) = sessionCore (leaveRoom s) ∧
    (leaveRoom s).channelRef = none ∧
    (leaveRoom s).localStreamRef = none ∧
    (leaveRoom s).screenShareStreamRef = none ∧
    (leaveRoom s).localStream = none ∧
    (leaveRoom s).peerRef = none ∧
    (leaveRoom s).peerConnections = [] ∧
    (leaveRoom s).participants = [] ∧
    (leaveRoom s).chatMessages = [] ∧
    (leaveRoom s).roomId = none ∧
    errorCount (leaveRoom s) = errorCount s := by
  refine ⟨?_, rfl, rfl, rfl, rfl, rfl, rfl, rfl, rfl, rfl, ?_⟩
  · simp [leaveRoom, sessionCore]
  · simp [leaveRoom, errorCount, List.countP_append, List.countP_cons]

/-- C3: the local media acquisition is total over the three
device-availability outcomes and returns the consistent pair for its tier
(audio+video: handle, unmuted, video on; audio-only: handle, unmuted,
video off; none: no handle, muted, video off), and with no devices the
join still proceeds to an active session (chat-only participation). -/
theorem initLocalStream_fallback_consistent (s : RoomState) (st : MediaStream) :
    ((initLocalStream (.both st) s).2 = some st ∧
      (initLocalStream (.both st) s).1.isAudioMuted = false ∧
      (initLocalStream (.both st) s).1.isVideoOff = false) ∧
    ((initLocalStream (.audioOnly st) s).2 = some st ∧
      (initLocalStream (.audioOnly st) s).1.isAudioMuted = false ∧
      (initLocalStream (.audioOnly st) s).1.isVideoOff = true) ∧
    ((initLocalStream .none s).2 = none ∧
      (initLocalStream .none s).1.isAudioMuted = true ∧
      (initLocalStream .none s).1.isVideoOff = true) ∧
    (∀ (u : User) (id : String) (f : Except Unit (List String)) (now : Nat),
      s.user = some u →
      (joinRoom { deviceOutcome := .none, fetched := f, presenceFails := false,
                  chatFails := false, now := now } id s).roomId = some id ∧
      (joinRoom { deviceOutcome := .none, fetched := f, presenceFails := false,
                  chatFails := false, now := now } id s).isJoining = false) := by
  refine ⟨?_, ?_, ?_, ?_⟩
  · cases hu : s.user <;> simp [initLocalStream, hu]
  · cases hu : s.user <;> simp [initLocalStream, hu]
  · cases hu : s.user <;> simp [initLocalStream, hu]
  · intro u id f now hu
    exact joinRoom_success_frame _ id s u hu rfl rfl

/-- Witness for C3 at a concrete no-devices join. -/
theorem initLocalStream_fallback_consistent_witness :
    ({ emptyState with user := some demoUser } : RoomState).user = some demoUser ∧
    (joinRoom { deviceOutcome := .none, fetched := .ok [], presenceFails := false,
                chatFails := false, now := 0 } "room1"
      { emptyState with user := some demoUser }).roomId = some "room1" :=
  ⟨rfl,
   ((initLocalStream_fallback_consistent { emptyState with user := some demoUser }
      camStream).2.2.2 demoUser "room1" (.ok []) 0 rfl).1⟩

/-- C8: sendChatMessage appends the message to the local history before
any network round-trip (the broadcast payload is the returned value, whose
delivery is a separate event), attributed to the local identity; the
broadcast handler drops messages whose sender is the local identity, so
the sender never sees its own message twice, and appends everything else. -/
theorem sendChatMessage_local_echo (s : RoomState) (u : User)
    (rid msgId text : String) (now : Nat)
    (hu : s.user = some u) (hr : s.roomId = some rid) :
    ∃ m : ChatMessage,
      (sendChatMessage msgId now text s).1.chatMessages = s.chatMessages ++ [m] ∧
      m.senderId = u.id ∧ m.senderName = u.name ∧ m.text = text ∧
      (sendChatMessage msgId now text s).2 = some m ∧
      (∀ s2 : RoomState, s2.user = some u → handleChatBroadcast (some m) s2 = s2) ∧
      (∀ (s2 : RoomState) (msg : ChatMessage), s2.user = some u →
        ¬ msg.senderId = u.id →
        handleChatBroadcast (some msg) s2 =
          { s2 with chatMessages := s2.chatMessages ++ [msg] }) := by
  refine ⟨⟨msgId, u.id, u.name, text, now⟩, ?_, rfl, rfl, rfl, ?_, ?_, ?_⟩
  · simp [sendChatMessage, hu, hr]
  · simp [sendChatMessage, hu, hr]
  · intro s2 hu2
    simp [handleChatBroadcast, hu2]
  · intro s2 msg hu2 hne
    simp [handleChatBroadcast, hu2, hne]

/-- Witness for C8 at a concrete active session. -/
theorem sendChatMessage_local_echo_witness :
    chatState.user = some demoUser ∧
    ∃ m : ChatMessage,
      (sendChatMessage "m1" 5 "hello" chatState).1.chatMessages
        = chatState.chatMessages ++ [m] ∧
      m.senderId = demoUser.id ∧ m.senderName = demoUser.name ∧ m.text = "hello" ∧
      (sendChatMessage "m1" 5 "hello" chatState).2 = some m ∧
      (∀ s2 : RoomState, s2.user = some demoUser →
        handleChatBroadcast (some m) s2 = s2) ∧
      (∀ (s2 : RoomState) (msg : ChatMessage), s2.user = some demoUser →
        ¬ msg.senderId = demoUser.id →
        handleChatBroadcast (some msg) s2 =
          { s2 with chatMessages := s2.chatMessages ++ [msg] }) :=
  ⟨rfl, sendChatMessage_local_echo chatState demoUser "room1" "m1" "hello" 5 rfl rfl⟩

/-- mapGet skips an entry whose key differs. -/
lemma mapGet_cons_ne {α : Type} (e : String × α) (t : List (String × α))
    (k : String) (he : ¬ e.1 = k) : mapGet (e :: t) k = mapGet t k := by
  simp [mapGet, List.find?_cons, he]

/-- mapGet stops at an entry whose key matches. -/
lemma mapGet_cons_eq {α : Type} (e : String × α) (t : List (String × α))
    (k : String) (he : e.1 = k) : mapGet (e :: t) k = some e.2 := by
  simp [mapGet, List.find?_cons, he]

/-- When the key was present, looking it up after the in-place overwrite
yields the written value. -/
lemma mapGet_overwrite {α : Type} (m : List (String × α)) (k : String) (v : α)
    (hany : m.any (fun e => e.1 = k) = true) :
    mapGet (m.map (fun e => if e.1 = k then (k, v) else e)) k = some v := by
  induction m with
  | nil => simp at hany
  | cons e t ih =>
    by_cases he : e.1 = k
    · simp only [List.map_cons, if_pos he]
      exact mapGet_cons_eq (k, v) _ k rfl
    · simp only [List.map_cons, if_neg he]
      rw [mapGet_cons_ne e _ k he]
      simp only [List.any_cons, Bool.or_eq_true, decide_eq_true_eq] at hany
      rcases hany with h | h
      · exact absurd h he
      · exact ih h

/-- When the key was absent, looking it up after appending the new entry
yields the appended value. -/
lemma mapGet_append_single {α : Type} (m : List (String × α)) (k : String) (v : α)
    (h : m.any (fun e => e.1 = k) = false) : mapGet (m ++ [(k, v)]) k = some v := by
  induction m with
  | nil => exact mapGet_cons_eq (k, v) [] k rfl
  | cons e t ih =>
    simp only [List.any_cons, Bool.or_eq_false_iff, decide_eq_false_iff_not] at h
    rw [List.cons_append, mapGet_cons_ne e _ k h.1]
    exact ih h.2

/-- Looking up the key just written by a JavaScript map assignment yields
the written value. -/
lemma mapGet_mapSet_self {α : Type} (m : List (String × α)) (k : String) (v : α) :
    mapGet (mapSet m k v) k = some v := by
  unfold mapSet
  split
  · exact mapGet_overwrite m k v (by assumption)
  · rename_i hany
    exact mapGet_append_single m k v (Bool.eq_false_iff.mpr hany)

/-- C10 (amended): both getValidUuid implementations return a UUID-format
id unchanged; the utils/uuid.ts implementation is additionally stable for
every other id (a second call with the store produced by the first returns
the same generated UUID); the AuthContext-local copy is not stable (see
the counterexample). -/
theorem getValidUuid_format_and_stability (g : UuidGen) (store : IdMappings)
    (id : String) :
    (isUuidFormat id = true →
      (getValidUuid g store id).1 = id ∧ (getValidUuidAuth g store id).1 = id) ∧
    (isUuidFormat id = false →
      (getValidUuid (getValidUuid g store id).2.2 (getValidUuid g store id).2.1
        id).1 = (getValidUuid g store id).1) := by
  constructor
  · intro h
    simp [getValidUuid, getValidUuidAuth, h]
  · intro h
    match hm : mapGet store id with
    | some mapped => simp [getValidUuid, h, hm]
    | none => simp [getValidUuid, h, hm, mapGet_mapSet_self]

/-- Witness for C10 (amended): a concrete UUID-format id is returned
unchanged and a concrete non-UUID id is stable across two utils calls. -/
theorem getValidUuid_format_and_stability_witness :
    ((getValidUuid genStream [] "123e4567-e89b-12d3-a456-426614174000").1
        = "123e4567-e89b-12d3-a456-426614174000") ∧
    ((getValidUuid (getValidUuid genStream [] "guest").2.2
        (getValidUuid genStream [] "guest").2.1 "guest").1
      = (getValidUuid genStream [] "guest").1) :=
  ⟨((getValidUuid_format_and_stability genStream []
      "123e4567-e89b-12d3-a456-426614174000").1 (by decide)).1,
   (getValidUuid_format_and_stability genStream [] "guest").2 (by decide)⟩

/-- C10 counterexample: the AuthContext-local getValidUuid, applied twice
to the same non-UUID id with the persisted mapping intact in between,
returns two different generated UUIDs. -/
theorem getValidUuidAuth_not_stable :
    (getValidUuidAuth genStream [] "guest").1 = "u0" ∧
    (getValidUuidAuth (getValidUuidAuth genStream [] "guest").2.2
        (getValidUuidAuth genStream [] "guest").2.1 "guest").1 = "u1" ∧
    ("u0" : String) ≠ "u1" := by
  refine ⟨?_, ?_, by decide⟩ <;> rfl

/-- C1: the post-state of a join whose presence-channel setup throws after
the camera+microphone stream and the peer endpoint were acquired: the
catch block clears the room id and surfaces one error, but the live local
media stream, the peer endpoint and the local roster entry all remain —
the rollback the specification requires does not happen. -/
theorem joinRoom_midfail_leaves_resources :
    (joinRoom ⟨.both camStream, .ok [], true, false, 0⟩ "room1"
        { emptyState with user := some demoUser }).roomId = none ∧
    (joinRoom ⟨.both camStream, .ok [], true, false, 0⟩ "room1"
        { emptyState with user := some demoUser }).isJoining = false ∧
    (joinRoom ⟨.both camStream, .ok [], true, false, 0⟩ "room1"
        { emptyState with user := some demoUser }).localStreamRef = some camStream ∧
    (joinRoom ⟨.both camStream, .ok [], true, false, 0⟩ "room1"
        { emptyState with user := some demoUser }).peerRef
      = some ⟨"room1" ++ "-" ++ demoUser.id⟩ ∧
    ¬ (joinRoom ⟨.both camStream, .ok [], true, false, 0⟩ "room1"
        { emptyState with user := some demoUser }).participants = [] ∧
    errorCount (joinRoom ⟨.both camStream, .ok [], true, false, 0⟩ "room1"
        { emptyState with user := some demoUser }) = 1 := by
  decide

/-- Deleting a key removes it from the lookup. -/
lemma mapGet_mapDelete_self {α : Type} (m : List (String × α)) (k : String) :
    mapGet (mapDelete m k) k = none := by
  induction m with
  | nil => rfl
  | cons e t ih =>
    by_cases he : e.1 = k
    · simpa [mapDelete, List.filter_cons, he] using ih
    · simp only [mapDelete, List.filter_cons] at ih ⊢
      simp only [he, not_false_iff, decide_true_eq_true, if_pos]
      rw [mapGet_cons_ne e _ k he]
      exact ih

/-- The presence leave handler at a single departed descriptor whose
advertised address has a stored call: the roster is filtered and the call
is closed and deleted. -/
lemma handlePresenceLeave_single (s : RoomState) (uid addr : String) (c : Call)
    (hc : mapGet s.peerConnections addr = some c) :
    handlePresenceLeave [⟨uid, some addr⟩] s =
      { s with
        participants := s.participants.filter (fun p => ¬ ([uid].contains p.id = true)),
        closedCallIds := s.closedCallIds ++ [c.callId],
        peerConnections := mapDelete s.peerConnections addr } := by
  simp [handlePresenceLeave, closeLinkFor, hc]

/-- C9: a presence leave event for an identity with a roster entry and an
open PeerLink removes the roster entry, closes the stored call at its
advertised address and deletes it from the link table, while every other
roster entry and every other link survives. -/
theorem presenceLeave_removes_and_closes (s : RoomState) (uid addr : String)
    (c : Call) (hc : mapGet s.peerConnections addr = some c) :
    ¬ uid ∈ rosterIds (handlePresenceLeave [⟨uid, some addr⟩] s) ∧
    mapGet (handlePresenceLeave [⟨uid, some addr⟩] s).peerConnections addr = none ∧
    c.callId ∈ (handlePresenceLeave [⟨uid, some addr⟩] s).closedCallIds ∧
    (∀ p ∈ s.participants, ¬ p.id = uid →
      p ∈ (handlePresenceLeave [⟨uid, some addr⟩] s).participants) ∧
    (∀ d ∈ s.peerConnections, ¬ d.1 = addr →
      d ∈ (handlePresenceLeave [⟨uid, some addr⟩] s).peerConnections) := by
  rw [handlePresenceLeave_single s uid addr c hc]
  refine ⟨?_, ?_, ?_, ?_, ?_⟩
  · simp [rosterIds, List.mem_filter]
  · exact mapGet_mapDelete_self s.peerConnections addr
  · simp
  · intro p hp hne
    simp only [List.mem_filter]
    exact ⟨hp, by simp [hne]⟩
  · intro d hd hne
    simp only [mapDelete, List.mem_filter]
    exact ⟨hd, by simp [hne]⟩

/-- Witness for C9 at a concrete session holding participant P2 with an
open link at its advertised address. -/
theorem presenceLeave_removes_and_closes_witness :
    mapGet ([("room1-P2", ⟨"room1-P2", some camStream, 7⟩)] :
        List (String × Call)) "room1-P2" = some ⟨"room1-P2", some camStream, 7⟩ ∧
    ¬ "P2" ∈ rosterIds (handlePresenceLeave [⟨"P2", some "room1-P2"⟩]
      { emptyState with
          participants := [⟨"P2", "user-P2", none, none, false, false, false,
            some "room1-P2"⟩],
          peerConnections := [("room1-P2", ⟨"room1-P2", some camStream, 7⟩)] }) :=
  ⟨rfl,
   (presenceLeave_removes_and_closes
      { emptyState with
          participants := [⟨"P2", "user-P2", none, none, false, false, false,
            some "room1-P2"⟩],
          peerConnections := [("room1-P2", ⟨"room1-P2", some camStream, 7⟩)] }
      "P2" "room1-P2" ⟨"room1-P2", some camStream, 7⟩ rfl).1⟩

/-- Re-setting the enabled flag overrides a previous set. -/
lemma map_setEnabled_setEnabled (xs : List Track) (a b : Bool) :
    (xs.map (fun t => { t with enabled := a })).map (fun t => { t with enabled := b })
      = xs.map (fun t => { t with enabled := b }) := by
  simp [List.map_map]

/-- Setting the enabled flag to the value every track already has is the
identity. -/
lemma map_setEnabled_self (xs : List Track) (b : Bool)
    (hcons : ∀ t ∈ xs, t.enabled = b) :
    xs.map (fun t => { t with enabled := b }) = xs := by
  induction xs with
  | nil => rfl
  | cons t ts ih =>
    have ht : t.enabled = b := hcons t (by simp)
    have htl := ih (fun t2 h2 => hcons t2 (by simp [h2]))
    cases t
    simp only [List.map_cons, htl]
    simp_all

/-- toggleAudio under a present stream with audio tracks: the closed form
of the state it produces. -/
lemma toggleAudio_eq (s : RoomState) (ls : MediaStream)
    (h : s.localStream = some ls) (hne : ¬ ls.audioTracks.length = 0) :
    ∃ ps ts, toggleAudio s =
      { s with localStream := some (setAudioEnabled ls s.isAudioMuted),
               isAudioMuted := !s.isAudioMuted,
               participants := ps, toasts := ts } := by
  cases hu : s.user with
  | none =>
    refine ⟨s.participants, ?_, ?_⟩
    · exact s.toasts ++
        [⟨.info, if !s.isAudioMuted then "Microphone muted" else "Microphone unmuted"⟩]
    · simp [toggleAudio, setAudioEnabled, h, hne, hu, Bool.not_not]
  | some u =>
    refine ⟨s.participants.map (fun p =>
      if p.id = u.id then { p with isMuted := !s.isAudioMuted } else p), ?_, ?_⟩
    · exact s.toasts ++
        [⟨.info, if !s.isAudioMuted then "Microphone muted" else "Microphone unmuted"⟩]
    · simp [toggleAudio, setAudioEnabled, h, hne, hu, Bool.not_not]

/-- toggleVideo under a present stream with video tracks: the closed form
of the state it produces. -/
lemma toggleVideo_eq (s : RoomState) (ls : MediaStream)
    (h : s.localStream = some ls) (hne : ¬ ls.videoTracks.length = 0) :
    ∃ ps ts, toggleVideo s =
      { s with localStream := some (setVideoEnabled ls s.isVideoOff),
               isVideoOff := !s.isVideoOff,
               participants := ps, toasts := ts } := by
  cases hu : s.user with
  | none =>
    refine ⟨s.participants, ?_, ?_⟩
    · exact s.toasts ++
        [⟨.info, if !s.isVideoOff then "Camera turned off" else "Camera turned on"⟩]
    · simp [toggleVideo, setVideoEnabled, h, hne, hu, Bool.not_not]
  | some u =>
    refine ⟨s.participants.map (fun p =>
      if p.id = u.id then { p with isVideoOff := !s.isVideoOff } else p), ?_, ?_⟩
    · exact s.toasts ++
        [⟨.info, if !s.isVideoOff then "Camera turned off" else "Camera turned on"⟩]
    · simp [toggleVideo, setVideoEnabled, h, hne, hu, Bool.not_not]

/-- toggleAudio never touches the stored calls, the closed-call log or the
call counter. -/
lemma toggleAudio_links_frame (s : RoomState) :
    (toggleAudio s).peerConnections = s.peerConnections ∧
    (toggleAudio s).closedCallIds = s.closedCallIds ∧
    (toggleAudio s).nextCallId = s.nextCallId := by
  cases h : s.localStream with
  | none => simp [toggleAudio, h]
  | some ls =>
    by_cases hne : ls.audioTracks.length = 0
    · simp [toggleAudio, h, hne]
    · cases hu : s.user <;> simp [toggleAudio, h, hne, hu]

/-- toggleVideo never touches the stored calls, the closed-call log or the
call counter. -/
lemma toggleVideo_links_frame (s : RoomState) :
    (toggleVideo s).peerConnections = s.peerConnections ∧
    (toggleVideo s).closedCallIds = s.closedCallIds ∧
    (toggleVideo s).nextCallId = s.nextCallId := by
  cases h : s.localStream with
  | none => simp [toggleVideo, h]
  | some ls =>
    by_cases hne : ls.videoTracks.length = 0
    · simp [toggleVideo, h, hne]
    · cases hu : s.user <;> simp [toggleVideo, h, hne, hu]

/-- C7: in a session whose local stream has audio (respectively video)
tracks whose enabled flags agree with the mute (respectively video-off)
flag, toggling audio (respectively video) twice restores the stream and
the flag, and neither single call nor the pair touches any stored
PeerLink, the closed-call log or the call counter. -/
theorem toggle_twice_restores (s : RoomState) (ls : MediaStream)
    (h : s.localStream = some ls) :
    ((¬ ls.audioTracks = []) →
      (∀ t ∈ ls.audioTracks, t.enabled = !s.isAudioMuted) →
      (toggleAudio (toggleAudio s)).localStream = some ls ∧
      (toggleAudio (toggleAudio s)).isAudioMuted = s.isAudioMuted ∧
      (toggleAudio s).peerConnections = s.peerConnections ∧
      (toggleAudio s).closedCallIds = s.closedCallIds ∧
      (toggleAudio (toggleAudio s)).peerConnections = s.peerConnections ∧
      (toggleAudio (toggleAudio s)).closedCallIds = s.closedCallIds ∧
      (toggleAudio (toggleAudio s)).nextCallId = s.nextCallId) ∧
    ((¬ ls.videoTracks = []) →
      (∀ t ∈ ls.videoTracks, t.enabled = !s.isVideoOff) →
      (toggleVideo (toggleVideo s)).localStream = some ls ∧
      (toggleVideo (toggleVideo s)).isVideoOff = s.isVideoOff ∧
      (toggleVideo s).peerConnections = s.peerConnections ∧
      (toggleVideo s).closedCallIds = s.closedCallIds ∧
      (toggleVideo (toggleVideo s)).peerConnections = s.peerConnections ∧
      (toggleVideo (toggleVideo s)).closedCallIds = s.closedCallIds ∧
      (toggleVideo (toggleVideo s)).nextCallId = s.nextCallId) := by
  constructor
  · intro hne hcons
    have hlen : ¬ ls.audioTracks.length = 0 := by
      simpa [List.length_eq_zero] using hne
    obtain ⟨ps1, ts1, e1⟩ := toggleAudio_eq s ls h hlen
    have h1 : (toggleAudio s).localStream
        = some (setAudioEnabled ls s.isAudioMuted) := by rw [e1]
    have hlen1 : ¬ (setAudioEnabled ls s.isAudioMuted).audioTracks.length = 0 := by
      simpa [setAudioEnabled] using hlen
    obtain ⟨ps2, ts2, e2⟩ := toggleAudio_eq (toggleAudio s) _ h1 hlen1
    have hm1 : (toggleAudio s).isAudioMuted = !s.isAudioMuted := by rw [e1]
    have hrestore : setAudioEnabled (setAudioEnabled ls s.isAudioMuted)
        ((toggleAudio s).isAudioMuted) = ls := by
      rw [hm1]
      unfold setAudioEnabled
      rw [map_setEnabled_setEnabled,
        map_setEnabled_self ls.audioTracks (!s.isAudioMuted) hcons]
    have hpc := toggleAudio_links_frame s
    have hpc2 := toggleAudio_links_frame (toggleAudio s)
    refine ⟨?_, ?_, hpc.1, hpc.2.1, ?_, ?_, ?_⟩
    · rw [e2]
      simp [hrestore]
    · rw [e2]
      simp [hm1, Bool.not_not]
    · rw [hpc2.1, hpc.1]
    · rw [hpc2.2.1, hpc.2.1]
    · rw [hpc2.2.2, hpc.2.2]
  · intro hne hcons
    have hlen : ¬ ls.videoTracks.length = 0 := by
      simpa [List.length_eq_zero] using hne
    obtain ⟨ps1, ts1, e1⟩ := toggleVideo_eq s ls h hlen
    have h1 : (toggleVideo s).localStream
        = some (setVideoEnabled ls s.isVideoOff) := by rw [e1]
    have hlen1 : ¬ (setVideoEnabled ls s.isVideoOff).videoTracks.length = 0 := by
      simpa [setVideoEnabled] using hlen
    obtain ⟨ps2, ts2, e2⟩ := toggleVideo_eq (toggleVideo s) _ h1 hlen1
    have hm1 : (toggleVideo s).isVideoOff = !s.isVideoOff := by rw [e1]
    have hrestore : setVideoEnabled (setVideoEnabled ls s.isVideoOff)
        ((toggleVideo s).isVideoOff) = ls := by
      rw [hm1]
      unfold setVideoEnabled
      rw [map_setEnabled_setEnabled,
        map_setEnabled_self ls.videoTracks (!s.isVideoOff) hcons]
    have hpc := toggleVideo_links_frame s
    have hpc2 := toggleVideo_links_frame (toggleVideo s)
    refine ⟨?_, ?_, hpc.1, hpc.2.1, ?_, ?_, ?_⟩
    · rw [e2]
      simp [hrestore]
    · rw [e2]
      simp [hm1, Bool.not_not]
    · rw [hpc2.1, hpc.1]
    · rw [hpc2.2.1, hpc.2.1]
    · rw [hpc2.2.2, hpc.2.2]

/-- A sequence of characters free of the separator splits into the single
segment it is. -/
lemma splitChar_no_sep (l : List Char) (sep : Char) (h : ∀ c ∈ l, ¬ c = sep) :
    splitChar l sep = [l] := by
  induction l with
  | nil => rfl
  | cons c cs ih =>
    have hc : ¬ c = sep := h c (by simp)
    have htl := ih (fun d hd => h d (by simp [hd]))
    simp [splitChar, hc, htl]

/-- Splitting a separator-free prefix followed by a separator peels the
prefix off as the first segment. -/
lemma splitChar_append_sep (l1 l2 : List Char) (sep : Char)
    (h : ∀ c ∈ l1, ¬ c = sep) :
    splitChar (l1 ++ sep :: l2) sep = l1 :: splitChar l2 sep := by
  induction l1 with
  | nil => simp [splitChar]
  | cons c cs ih =>
    have hc : ¬ c = sep := h c (by simp)
    have htl := ih (fun d hd => h d (by simp [hd]))
    simp [splitChar, hc, htl]

/-- When neither part contains a hyphen, the identity encoded into a
composite peer address is recovered by the split the source performs. -/
lemma remoteIdOfPeerId_concat (rid p : String)
    (hr : ∀ c ∈ rid.data, ¬ c = '-') (hp : ∀ c ∈ p.data, ¬ c = '-') :
    remoteIdOfPeerId (rid ++ "-" ++ p) = some p := by
  unfold remoteIdOfPeerId jsSplit
  have hdata : (rid ++ "-" ++ p).data = rid.data ++ '-' :: p.data := by
    simp [String.data_append]
  rw [hdata, splitChar_append_sep rid.data p.data '-' hr,
    splitChar_no_sep p.data '-' hp]
  rfl

/-- C5 (amended): the endpoint is initialized at exactly roomId-identity;
an arriving inbound stream is attached to the roster entry whose identity
is the second hyphen-separated segment of the remote address, which equals
the encoded identity p exactly when neither the room id nor p contains a
hyphen (as in the R1/P2 spec scenario; the counterexample shows the
attachment misses once the room id itself contains a hyphen, as UUID room
ids do). -/
theorem peer_address_and_stream_attachment (s : RoomState) (u : User)
    (rid p : String) (st : MediaStream)
    (hu : s.user = some u) (hr : s.roomId = some rid)
    (hrid : ∀ c ∈ rid.data, ¬ c = '-') (hp : ∀ c ∈ p.data, ¬ c = '-') :
    (initializePeer s).peerRef = some ⟨rid ++ "-" ++ u.id⟩ ∧
    remoteIdOfPeerId (rid ++ "-" ++ p) = some p ∧
    handleIncomingStream (rid ++ "-" ++ p) st s =
      { s with participants := s.participants.map (fun q =>
          if q.id = p then
            { q with stream := some st, peerId := some (rid ++ "-" ++ p) }
          else q) } ∧
    (∀ q ∈ s.participants, q.id = p →
      ({ q with stream := some st, peerId := some (rid ++ "-" ++ p) } : Participant)
        ∈ (handleIncomingStream (rid ++ "-" ++ p) st s).participants) := by
  have hsplit := remoteIdOfPeerId_concat rid p hrid hp
  have hmain : handleIncomingStream (rid ++ "-" ++ p) st s =
      { s with participants := s.participants.map (fun q =>
          if q.id = p then
            { q with stream := some st, peerId := some (rid ++ "-" ++ p) }
          else q) } := by
    unfold handleIncomingStream
    rw [hsplit]
  refine ⟨?_, hsplit, hmain, ?_⟩
  · simp [initializePeer, hu, hr]
  · intro q hq hqp
    rw [hmain]
    have hmem := List.mem_map_of_mem (fun q =>
      if q.id = p then
        ({ q with stream := some st, peerId := some (rid ++ "-" ++ p) } : Participant)
      else q) hq
    simpa [hqp] using hmem

/-- Witness for C5 (amended) at the spec scenario: room R1, identity P2 on
the roster, stream arriving at address R1-P2. -/
theorem peer_address_and_stream_attachment_witness :
    plainRoomState.user = some demoUser ∧
    (initializePeer plainRoomState).peerRef = some ⟨"R1" ++ "-" ++ demoUser.id⟩ ∧
    remoteIdOfPeerId ("R1" ++ "-" ++ "P2") = some "P2" ∧
    ({ p2Entry with stream := some camStream, peerId := some ("R1" ++ "-" ++ "P2") } : Participant)
      ∈ (handleIncomingStream ("R1" ++ "-" ++ "P2") camStream
          plainRoomState).participants :=
  have hmain := peer_address_and_stream_attachment plainRoomState demoUser
    "R1" "P2" camStream rfl rfl (by decide) (by decide)
  ⟨rfl, hmain.1, hmain.2.1,
   hmain.2.2.2 p2Entry (by simp [plainRoomState]) rfl⟩

/-- C5 counterexample: in room "a-b" the address "a-b-P2" encodes identity
"P2" under the roomId-identity scheme, yet the arriving stream is not
attached to the roster entry of "P2" (the split recovers "b"), so the
entry keeps no media handle. -/
theorem inboundStream_misses_entry_with_hyphenated_roomId :
    (initializePeer hyphenRoomState).peerRef = some ⟨"a-b" ++ "-" ++ demoUser.id⟩ ∧
    remoteIdOfPeerId ("a-b" ++ "-" ++ "P2") = some "b" ∧
    (handleIncomingStream ("a-b" ++ "-" ++ "P2") camStream
        hyphenRoomState).participants.map (fun q => q.stream) = [none] := by
  decide

/-- The redialing loop keeps the stored remote addresses, in order. -/
lemma replaceCallsAux_true_keys (m : MediaStream) (conns : List (String × Call))
    (n : Nat) (cl : List Nat) :
    (replaceCallsAux true m conns n cl).1.map Prod.fst = conns.map Prod.fst := by
  induction conns generalizing n cl with
  | nil => rfl
  | cons e rest ih =>
    rcases e with ⟨k, c⟩
    simp [replaceCallsAux, ih]

/-- The redialing loop closes exactly the previously stored calls, in
order, on top of the existing log. -/
lemma replaceCallsAux_true_closed (m : MediaStream) (conns : List (String × Call))
    (n : Nat) (cl : List Nat) :
    (replaceCallsAux true m conns n cl).2.2
      = cl ++ conns.map (fun e => e.2.callId) := by
  induction conns generalizing n cl with
  | nil => simp [replaceCallsAux]
  | cons e rest ih =>
    rcases e with ⟨k, c⟩
    simp [replaceCallsAux, ih]

/-- Every call the redialing loop stores is fresh: its serial number is at
least the counter the loop started from. -/
lemma replaceCallsAux_true_fresh (m : MediaStream) (conns : List (String × Call))
    (n : Nat) (cl : List Nat) :
    ∀ e ∈ (replaceCallsAux true m conns n cl).1, n ≤ e.2.callId := by
  induction conns generalizing n cl with
  | nil => simp [replaceCallsAux]
  | cons e rest ih =>
    rcases e with ⟨k, c⟩
    intro d hd
    simp only [replaceCallsAux, if_true, List.mem_cons] at hd
    rcases hd with h | h
    · rw [h]
    · exact Nat.le_of_succ_le (ih (n + 1) (cl ++ [c.callId]) d h)

/-- The counter never decreases across the redialing loop. -/
lemma replaceCallsAux_true_nextId_ge (m : MediaStream)
    (conns : List (String × Call)) (n : Nat) (cl : List Nat) :
    n ≤ (replaceCallsAux true m conns n cl).2.1 := by
  induction conns generalizing n cl with
  | nil => exact Nat.le_refl n
  | cons e rest ih =>
    rcases e with ⟨k, c⟩
    simp only [replaceCallsAux, if_true]
    exact Nat.le_of_succ_le (ih (n + 1) (cl ++ [c.callId]))

/-- A key occurring among the first components of an association list has
an entry. -/
lemma mem_of_mem_map_fst {α : Type} (l : List (String × α)) (k : String)
    (h : k ∈ l.map Prod.fst) : ∃ v, (k, v) ∈ l := by
  rcases List.mem_map.mp h with ⟨x, hx, hk⟩
  exact ⟨x.2, by rw [← hk]; exact hx⟩

/-- The screen-share start branch in closed form. -/
lemma toggleScreenShare_start_eq (s : RoomState) (u : User) (scr : MediaStream)
    (hu : s.user = some u) (hss : s.isScreenSharing = false) :
    toggleScreenShare (some scr) s =
      { s with screenShareStreamRef := some scr, localStream := some scr,
               isScreenSharing := true,
               peerConnections := (replaceCallsAux s.peerRef.isSome scr s.peerConnections s.nextCallId s.closedCallIds).1,
               nextCallId := (replaceCallsAux s.peerRef.isSome scr s.peerConnections s.nextCallId s.closedCallIds).2.1,
               closedCallIds := (replaceCallsAux s.peerRef.isSome scr s.peerConnections s.nextCallId s.closedCallIds).2.2,
               participants := s.participants.map (fun p => if p.id = u.id then { p with isScreenSharing := true } else p),
               toasts := s.toasts ++ [⟨.success, "Screen sharing started"⟩] } := by
  simp [toggleScreenShare, replaceAllCalls, hu, hss]

/-- The screen-share stop branch in closed form, when the camera stream is
still held. -/
lemma toggleScreenShare_stop_eq (s : RoomState) (u : User) (cam : MediaStream)
    (d : Option MediaStream) (hu : s.user = some u)
    (hss : s.isScreenSharing = true) (hcam : s.localStreamRef = some cam) :
    toggleScreenShare d s =
      { s with screenShareStreamRef := none, localStream := some cam,
               isScreenSharing := false,
               peerConnections := (replaceCallsAux s.peerRef.isSome cam s.peerConnections s.nextCallId s.closedCallIds).1,
               nextCallId := (replaceCallsAux s.peerRef.isSome cam s.peerConnections s.nextCallId s.closedCallIds).2.1,
               closedCallIds := (replaceCallsAux s.peerRef.isSome cam s.peerConnections s.nextCallId s.closedCallIds).2.2,
               participants := s.participants.map (fun p => if p.id = u.id then { p with isScreenSharing := false } else p),
               toasts := s.toasts ++ [⟨.info, "Screen sharing stopped"⟩] } := by
  simp [toggleScreenShare, replaceAllCalls, hu, hss, hcam]

/-- C6: starting and then stopping screen share preserves the set of
PeerLink remote addresses exactly; each previously stored call is closed
and a fresh call to the same address is stored, so no link is leaked and
none dropped. -/
theorem screenShare_toggle_preserves_peer_set (s : RoomState) (u : User)
    (scr cam : MediaStream) (d : Option MediaStream)
    (hu : s.user = some u) (hss : s.isScreenSharing = false)
    (hpeer : s.peerRef.isSome = true) (hcam : s.localStreamRef = some cam)
    (hbound : ∀ e ∈ s.peerConnections, e.2.callId < s.nextCallId) :
    (toggleScreenShare d (toggleScreenShare (some scr) s)).peerConnections.map Prod.fst
        = s.peerConnections.map Prod.fst ∧
    (∀ e ∈ s.peerConnections, e.2.callId ∈
      (toggleScreenShare d (toggleScreenShare (some scr) s)).closedCallIds) ∧
    (∀ e ∈ s.peerConnections, ∃ c2,
      (e.1, c2) ∈ (toggleScreenShare d (toggleScreenShare (some scr) s)).peerConnections ∧
      ¬ c2.callId = e.2.callId) := by
  have e1 := toggleScreenShare_start_eq s u scr hu hss
  have hu1 : (toggleScreenShare (some scr) s).user = some u := by rw [e1]; exact hu
  have hss1 : (toggleScreenShare (some scr) s).isScreenSharing = true := by rw [e1]
  have hcam1 : (toggleScreenShare (some scr) s).localStreamRef = some cam := by
    rw [e1]; exact hcam
  have e2 := toggleScreenShare_stop_eq (toggleScreenShare (some scr) s) u cam d
    hu1 hss1 hcam1
  rw [e2, e1]
  simp only [hpeer]
  constructor
  · rw [replaceCallsAux_true_keys, replaceCallsAux_true_keys]
  constructor
  · intro e he
    rw [replaceCallsAux_true_closed, replaceCallsAux_true_closed]
    refine List.mem_append_left _ ?_
    refine List.mem_append_right _ ?_
    exact List.mem_map_of_mem (fun e => e.2.callId) he
  · intro e he
    have hkey : e.1 ∈ (replaceCallsAux true cam
        (replaceCallsAux true scr s.peerConnections s.nextCallId s.closedCallIds).1
        (replaceCallsAux true scr s.peerConnections s.nextCallId s.closedCallIds).2.1
        (replaceCallsAux true scr s.peerConnections s.nextCallId s.closedCallIds).2.2).1.map
          Prod.fst := by
      rw [replaceCallsAux_true_keys, replaceCallsAux_true_keys]
      exact List.mem_map_of_mem Prod.fst he
    obtain ⟨c2, hc2⟩ := mem_of_mem_map_fst _ _ hkey
    refine ⟨c2, hc2, ?_⟩
    have hfresh := replaceCallsAux_true_fresh cam _ _ _ (e.1, c2) hc2
    have hge : s.nextCallId ≤
        (replaceCallsAux true scr s.peerConnections s.nextCallId s.closedCallIds).2.1 :=
      replaceCallsAux_true_nextId_ge scr s.peerConnections s.nextCallId s.closedCallIds
    have hlt := hbound e he
    intro hcontra
    rw [hcontra] at hfresh
    exact absurd (Nat.lt_of_lt_of_le hlt (Nat.le_trans hge hfresh)) (Nat.lt_irrefl _)

/-- Witness for C6 at a concrete session with one open link. -/
theorem screenShare_toggle_preserves_peer_set_witness :
    shareState.user = some demoUser ∧
    (toggleScreenShare none (toggleScreenShare (some screenStream)
        shareState)).peerConnections.map Prod.fst
      = shareState.peerConnections.map Prod.fst :=
  ⟨rfl,
   (screenShare_toggle_preserves_peer_set shareState demoUser screenStream
      camStream none rfl rfl rfl rfl (by decide)).1⟩

/-- Witness for C7 at a concrete session streaming one audio and one video
track. -/
theorem toggle_twice_restores_witness :
    ({ emptyState with localStream := some camStream } : RoomState).localStream
      = some camStream ∧
    (toggleAudio (toggleAudio { emptyState with localStream := some camStream
      })).localStream = some camStream ∧
    (toggleVideo (toggleVideo { emptyState with localStream := some camStream
      })).localStream = some camStream :=
  ⟨rfl,
   ((toggle_twice_restores { emptyState with localStream := some camStream }
      camStream rfl).1 (by decide) (by decide)).1,
   ((toggle_twice_restores { emptyState with localStream := some camStream }
      camStream rfl).2 (by decide) (by decide)).1⟩

/-- Mapping an id-preserving function over a roster leaves its id list
unchanged. -/
lemma ids_map_of_id_preserving (ps : List Participant)
    (f : Participant → Participant) (hf : ∀ p, (f p).id = p.id) :
    (ps.map f).map (fun p => p.id) = ps.map (fun p => p.id) := by
  rw [List.map_map]
  exact List.map_congr_left (fun p _ => hf p)

/-- The local-participant upsert preserves roster-id uniqueness. -/
lemma setLocalParticipant_ids_nodup (u : User) (newStream : Option MediaStream)
    (muted videoOff : Bool) (ps : List Participant)
    (h : (ps.map (fun p => p.id)).Nodup) :
    ((setLocalParticipant u newStream muted videoOff ps).map
      (fun p => p.id)).Nodup := by
  unfold setLocalParticipant
  split
  · rw [ids_map_of_id_preserving]
    · exact h
    · intro p
      split <;> rfl
  · rename_i hany
    have hnotin : ¬ u.id ∈ ps.map (fun p => p.id) := by
      intro hmem
      rcases List.mem_map.mp hmem with ⟨p, hp, hpe⟩
      exact hany (List.any_eq_true.mpr ⟨p, hp, by simp [hpe]⟩)
    rw [List.map_append]
    refine List.Nodup.append h (by simp) ?_
    intro x hx hx2
    simp only [List.map_cons, List.map_nil, List.mem_singleton] at hx2
    rw [hx2] at hx
    exact hnotin hx

/-- Every tier of initLocalStream preserves roster-id uniqueness. -/
lemma initLocalStream_ids_nodup (o : DeviceOutcome) (s : RoomState)
    (h : (rosterIds s).Nodup) : (rosterIds (initLocalStream o s).1).Nodup := by
  unfold rosterIds at h ⊢
  cases o <;> cases hu : s.user <;>
    simp only [initLocalStream, hu] <;>
    first
      | exact h
      | exact setLocalParticipant_ids_nodup _ _ _ _ _ h

/-- The enrichment merge preserves roster-id uniqueness when the fetched
batch has pairwise distinct user ids. -/
lemma merge_ids_nodup (rows2 : List String) (ps : List Participant)
    (hrows : rows2.Nodup) (h : (ps.map (fun p => p.id)).Nodup) :
    ((ps ++ (rows2.map participantOfRow).filter
        (fun p => ¬ (ps.map (fun q => q.id)).contains p.id)).map
      (fun p => p.id)).Nodup := by
  have hfm : (rows2.map participantOfRow).filter
        (fun p => ¬ (ps.map (fun q => q.id)).contains p.id)
      = (rows2.filter
          (fun r => ¬ (ps.map (fun q => q.id)).contains r)).map participantOfRow := by
    rw [List.filter_map]
    rfl
  have hids : ((rows2.filter
        (fun r => ¬ (ps.map (fun q => q.id)).contains r)).map
          participantOfRow).map (fun p => p.id)
      = rows2.filter (fun r => ¬ (ps.map (fun q => q.id)).contains r) := by
    rw [List.map_map]
    exact List.map_id' _
  rw [List.map_append, hfm]
  refine List.Nodup.append h ?_ ?_
  · rw [hids]
    exact hrows.filter _
  · intro x hx hx2
    rw [hids] at hx2
    rcases List.mem_filter.mp hx2 with ⟨hmem, hpred⟩
    rw [decide_eq_true_eq] at hpred
    exact hpred (by simpa using hx)

/-- fetchRoomParticipants preserves roster-id uniqueness when the fetched
rows carry pairwise distinct user ids. -/
lemma fetchRoomParticipants_ids_nodup (rows : List String) (rid : String)
    (s : RoomState) (hrows : rows.Nodup) (h : (rosterIds s).Nodup) :
    (rosterIds (fetchRoomParticipants (.ok rows) rid s)).Nodup := by
  unfold fetchRoomParticipants
  unfold rosterIds at h ⊢
  split
  · exact h
  · cases hu : s.user with
    | some u =>
      simp only [hu]
      split
      · exact merge_ids_nodup _ _ (hrows.filter _) h
      · exact h
    | none =>
      simp only [hu]
      split
      · exact merge_ids_nodup _ _ hrows h
      · exact h

/-- A presence descriptor update never changes the roster id list. -/
lemma applyPresenceUpdate_ids (u : User) (pr : Presence)
    (ps : List Participant) :
    (applyPresenceUpdate u pr ps).map (fun p => p.id)
      = ps.map (fun p => p.id) := by
  unfold applyPresenceUpdate
  split
  · split
    · exact ids_map_of_id_preserving _ _ (fun p => by split <;> rfl)
    · rfl
  · rfl

/-- Folding presence descriptor updates never changes the roster id list. -/
lemma presenceFold_ids (u : User) (prs : List Presence) (ps : List Participant) :
    (prs.foldl (fun a pr => applyPresenceUpdate u pr a) ps).map (fun p => p.id)
      = ps.map (fun p => p.id) := by
  induction prs generalizing ps with
  | nil => rfl
  | cons pr rest ih => rw [List.foldl_cons, ih, applyPresenceUpdate_ids]

/-- One connect iteration never touches the roster. -/
lemma connectStep_participants (u : User) (ls : MediaStream) (st : RoomState)
    (p : Participant) : (connectStep u ls st p).participants = st.participants := by
  unfold connectStep
  split
  · rfl
  · split
    · rfl
    · split <;> rfl

/-- The connect loop never touches the roster. -/
lemma connectFold_participants (u : User) (ls : MediaStream)
    (l : List Participant) (st : RoomState) :
    (l.foldl (connectStep u ls) st).participants = st.participants := by
  induction l generalizing st with
  | nil => rfl
  | cons p rest ih => rw [List.foldl_cons, ih, connectStep_participants]

/-- connectToPeers never touches the roster. -/
lemma connectToPeers_participants (s : RoomState) :
    (connectToPeers s).participants = s.participants := by
  unfold connectToPeers
  rcases hp : s.peerRef with _ | ph <;> rcases hl : s.localStreamRef with _ | ls <;>
    rcases huu : s.user with _ | u <;> simp [connectFold_participants]

/-- The presence sync handler preserves roster-id uniqueness. -/
lemma handlePresenceSync_ids_nodup (prs : List Presence) (s : RoomState)
    (h : (rosterIds s).Nodup) : (rosterIds (handlePresenceSync prs s)).Nodup := by
  unfold handlePresenceSync
  cases hu : s.user with
  | none => exact h
  | some u =>
    unfold rosterIds at h ⊢
    rw [connectToPeers_participants]
    simpa [presenceFold_ids] using h

/-- The presence join handler preserves roster-id uniqueness. -/
lemma handlePresenceJoin_ids_nodup (prs : List Presence) (s : RoomState)
    (h : (rosterIds s).Nodup) : (rosterIds (handlePresenceJoin prs s)).Nodup := by
  unfold handlePresenceJoin
  cases hu : s.user with
  | none => exact h
  | some u =>
    unfold rosterIds at h ⊢
    simpa [presenceFold_ids] using h

/-- Closing the link of one departed descriptor never touches the roster. -/
lemma closeLinkFor_participants (pr : Presence) (s : RoomState) :
    (closeLinkFor pr s).participants = s.participants := by
  unfold closeLinkFor
  split
  · split <;> rfl
  · rfl

/-- Folding the link-closing step never touches the roster. -/
lemma closeFold_participants (prs : List Presence) (s : RoomState) :
    (prs.foldl (fun st pr => closeLinkFor pr st) s).participants
      = s.participants := by
  induction prs generalizing s with
  | nil => rfl
  | cons pr rest ih => rw [List.foldl_cons, ih, closeLinkFor_participants]

/-- The presence leave handler preserves roster-id uniqueness. -/
lemma handlePresenceLeave_ids_nodup (prs : List Presence) (s : RoomState)
    (h : (rosterIds s).Nodup) : (rosterIds (handlePresenceLeave prs s)).Nodup := by
  simp only [handlePresenceLeave]
  split
  · unfold rosterIds at h ⊢
    rw [closeFold_participants]
    refine List.Nodup.sublist (List.Sublist.map _ (List.filter_sublist _)) h
  · exact h

/-- The inbound-call handler never touches the roster. -/
lemma handleIncomingCall_ids (callPeer : String) (s : RoomState) :
    (handleIncomingCall callPeer s).participants = s.participants := rfl

/-- The inbound-stream handler preserves roster-id uniqueness. -/
lemma handleIncomingStream_ids_nodup (callPeer : String) (st : MediaStream)
    (s : RoomState) (h : (rosterIds s).Nodup) :
    (rosterIds (handleIncomingStream callPeer st s)).Nodup := by
  unfold handleIncomingStream
  split
  · unfold rosterIds at h ⊢
    rw [ids_map_of_id_preserving]
    · exact h
    · intro p
      split <;> rfl
  · exact h

/-- The outbound-stream handler preserves roster-id uniqueness. -/
lemma handleOutboundStream_ids_nodup (targetId : String) (st : MediaStream)
    (s : RoomState) (h : (rosterIds s).Nodup) :
    (rosterIds (handleOutboundStream targetId st s)).Nodup := by
  unfold handleOutboundStream rosterIds at *
  rw [ids_map_of_id_preserving]
  · exact h
  · intro p
    split <;> rfl

/-- The endpoint-open handler preserves roster-id uniqueness. -/
lemma handlePeerOpen_ids_nodup (s : RoomState) (h : (rosterIds s).Nodup) :
    (rosterIds (handlePeerOpen s)).Nodup := by
  unfold handlePeerOpen
  cases hu : s.user with
  | none => exact h
  | some u =>
    cases hpr : s.peerRef with
    | none => exact h
    | some ph =>
      unfold rosterIds at h ⊢
      simp only [hu, hpr]
      rw [ids_map_of_id_preserving]
      · exact h
      · intro p
        split <;> rfl

/-- Every well-formed roster-mutating event preserves roster-id
uniqueness. -/
lemma applyEvent_ids_nodup (e : RoomEvent) (s : RoomState) (hwf : eventWF e)
    (h : (rosterIds s).Nodup) : (rosterIds (applyEvent e s)).Nodup := by
  cases e with
  | localInsert o => exact initLocalStream_ids_nodup o s h
  | enrich rid rows => exact fetchRoomParticipants_ids_nodup rows rid s hwf h
  | presenceSync prs => exact handlePresenceSync_ids_nodup prs s h
  | presenceJoin prs => exact handlePresenceJoin_ids_nodup prs s h
  | presenceLeave prs => exact handlePresenceLeave_ids_nodup prs s h
  | inboundCall callPeer =>
    have he : applyEvent (RoomEvent.inboundCall callPeer) s
        = handleIncomingCall callPeer s := rfl
    rw [rosterIds, he, handleIncomingCall_ids]
    exact h
  | inboundStream callPeer st => exact handleIncomingStream_ids_nodup callPeer st s h
  | outboundStream targetId st => exact handleOutboundStream_ids_nodup targetId st s h
  | connect =>
    have he : applyEvent RoomEvent.connect s = connectToPeers s := rfl
    rw [rosterIds, he, connectToPeers_participants]
    exact h
  | peerOpen => exact handlePeerOpen_ids_nodup s h

/-- C2: over every sequence of roster-mutating operations and events (with
each enrichment batch listing pairwise distinct user ids, as the backend's
room+user upsert key guarantees), a roster whose identities are pairwise
distinct stays that way: the roster never contains two entries with the
same identity. -/
theorem roster_identity_unique (evs : List RoomEvent) (s : RoomState)
    (h0 : (rosterIds s).Nodup) (hwf : ∀ e ∈ evs, eventWF e) :
    (rosterIds (applyEvents evs s)).Nodup := by
  induction evs generalizing s with
  | nil => exact h0
  | cons e rest ih =>
    exact ih (applyEvent e s)
      (applyEvent_ids_nodup e s (hwf e (by simp)) h0)
      (fun e2 h2 => hwf e2 (by simp [h2]))

/-- Witness for C2 over a concrete event sequence exercising every kind of
roster-mutating event from a fresh session. -/
theorem roster_identity_unique_witness :
    (rosterIds (applyEvents demoEvents demoStartState)).Nodup :=
  roster_identity_unique demoEvents demoStartState (by decide)
    (by
      intro e he
      simp only [demoEvents, List.mem_cons, List.not_mem_nil, or_false] at he
      rcases he with h | h | h | h | h | h | h | h | h | h <;> subst h <;>
        simp [eventWF])

end StudyStream
